import Mathlib

/-!
Verification of the sportsquizapp core: the quiz generation/validation
pipeline (`functions/src/generateQuiz.ts`, v2 `onCall` version) and the
grading engine (`functions/src/submitQuiz.ts`).

JavaScript runtime values reaching the untyped parts of the code are
modelled by the `Js` type below; JS numbers are modelled as rationals
(no float rounding or NaN is involved in the modelled comparisons).
The JS string primitives used by the code (`trim`, `startsWith`,
`endsWith`, `slice`, `charAt`) are implemented here over the character
list of the string so that every definition evaluates inside Lean.
-/

namespace SportsQuiz

/-! ## Definitions -/

instance {ε α : Type} [DecidableEq ε] [DecidableEq α] : DecidableEq (Except ε α)
  | .ok x, .ok y =>
      if h : x = y then .isTrue (by rw [h]) else .isFalse (by simp [h])
  | .error x, .error y =>
      if h : x = y then .isTrue (by rw [h]) else .isFalse (by simp [h])
  | .ok _, .error _ => .isFalse (by simp)
  | .error _, .ok _ => .isFalse (by simp)

/-- The whitespace characters removed by JavaScript `String.prototype.trim`
(the ASCII portion, which is all the code's inputs use). -/
def jsWsChar (c : Char) : Bool :=
  c == ' ' || c == '\t' || c == '\n' || c == '\r' || c == '\x0b' || c == '\x0c'

/-- JavaScript `s.trim()`: remove leading and trailing whitespace. -/
def jsTrim (s : String) : String :=
  ⟨((s.data.dropWhile jsWsChar).reverse.dropWhile jsWsChar).reverse⟩

/-- JavaScript `s.startsWith(pat)`. -/
def jsStartsWith (s pat : String) : Bool :=
  pat.data.isPrefixOf s.data

/-- JavaScript `s.endsWith(pat)`. -/
def jsEndsWith (s pat : String) : Bool :=
  pat.data.reverse.isPrefixOf s.data.reverse

/-- JavaScript `s.slice(n)` for `0 ≤ n`: drop the first `n` characters. -/
def jsDrop (s : String) (n : Nat) : String := ⟨s.data.drop n⟩

/-- JavaScript `s.slice(0, -n)` for `0 < n ≤ s.length`: drop the last `n`
characters. -/
def jsDropRight (s : String) (n : Nat) : String :=
  ⟨s.data.take (s.data.length - n)⟩

/-- JavaScript `s.charAt(0)`: the first character as a string, `""` when
the string is empty. -/
def charAt0 (s : String) : String := ⟨s.data.take 1⟩

/-- JavaScript `Math.round`: round half towards positive infinity,
`Math.round x = ⌊x + 1/2⌋`. -/
def jsRound (x : ℚ) : ℤ := ⌊x + 1 / 2⌋

/-- A JavaScript runtime value as seen by the untrusted parts of the code:
everything `JSON.parse` can produce, plus `undefined` for absent request
fields and absent object properties. -/
inductive Js where
  | undefined : Js
  | null : Js
  | str : String → Js
  | num : ℚ → Js
  | bool : Bool → Js
  | arr : List Js → Js
  | obj : List (String × Js) → Js

/-- Property access `v.k`: on an object the value of key `k` (a duplicate
key keeps the last occurrence, as `JSON.parse` does), `undefined`
otherwise. -/
def Js.get : Js → String → Js
  | .obj fields, k =>
      match fields.reverse.find? (fun p => p.1 == k) with
      | some p => p.2
      | none => .undefined
  | _, _ => .undefined

/-- Array indexing `v[i]`: `undefined` when out of range or not an array. -/
def Js.index : Js → Nat → Js
  | .arr l, i => (l.get? i).getD .undefined
  | _, _ => .undefined

/-- JavaScript truthiness of a value. -/
def jsTruthy : Js → Bool
  | .undefined => false
  | .null => false
  | .str s => !(s == "")
  | .num q => !(q == 0)
  | .bool b => b
  | .arr _ => true
  | .obj _ => true

/-- `typeof v === 'string'`. -/
def jsIsString : Js → Bool
  | .str _ => true
  | _ => false

/-- `typeof v === 'number'`. -/
def jsIsNumber : Js → Bool
  | .num _ => true
  | _ => false

/-- `Array.isArray(v)`. -/
def jsIsArray : Js → Bool
  | .arr _ => true
  | _ => false

/-- The underlying string of a string value (only consulted where the code
has already established `typeof v === 'string'`). -/
def jsStr : Js → String
  | .str s => s
  | _ => ""

/-- The underlying number of a numeric value (only consulted where the code
has already established `typeof v === 'number'`). -/
def jsNum : Js → ℚ
  | .num q => q
  | _ => 0

/-- The element list of an array value (only consulted under
`Array.isArray`). -/
def jsElems : Js → List Js
  | .arr l => l
  | _ => []

/-- Strict equality `v === "lit"` against a string literal. -/
def jsStrEq (v : Js) (s : String) : Bool :=
  match v with
  | .str t => t == s
  | _ => false

/-- `v || d`: the value itself when truthy, otherwise the default. -/
def jsOr (v d : Js) : Js := if jsTruthy v then v else d

/-- `[".."].includes(v)` against a list of string literals (strict
equality, so any non-string `v` is not a member). -/
def jsIncludes (l : List String) (v : Js) : Bool :=
  match v with
  | .str s => l.contains s
  | _ => false

/-- The `cleanedText` computation of `generateQuiz` (the spec's
ResponseSanitizer): trim; strip a leading fence exactly when the trimmed
text starts with the 7-character marker `` ```json ``; strip a trailing
`` ``` `` when present; trim again. -/
def sanitize (text : String) : String :=
  let t0 := jsTrim text
  let t1 := if jsStartsWith t0 "```json" then jsDrop t0 7 else t0
  let t2 := if jsEndsWith t1 "```" then jsDropRight t1 3 else t1
  jsTrim t2

/-- The authenticated caller: `request.auth.uid` together with the result
of the custom-claims lookup `customClaims.admin === true`. -/
structure CallerAuth where
  uid : String
  isAdmin : Bool

/-- The client payload of `generateQuiz` (interface
`QuizGenerationCallableRequest`).  Every field is a raw runtime value:
the function validates `category`, `numberOfQuestions` and `quizType`
itself and the rest are used through `||` defaults. -/
structure GenRequest where
  title : Js
  category : Js
  difficulty : Js
  numberOfQuestions : Js
  team : Js
  event : Js
  country : Js
  visibility : Js
  quizType : Js

/-- A question as persisted inside a quiz document (the object built in
the `questionsRaw.map` step). -/
structure QuestionDoc where
  id : String
  text : Js
  type : Js
  options : Js
  correctAnswer : Js

/-- The persisted quiz document `quizToSave` (the `createdAt` server
timestamp is outside the model). -/
structure QuizDoc where
  id : String
  title : Js
  category : Js
  difficulty : Js
  event : Js
  team : Js
  country : Js
  questions : List QuestionDoc
  createdBy : String
  visibility : String
  quizType : Js

/-- The external collaborators of one `generateQuiz` invocation:
the Secret Resolver outcome, the Generative Text Service call combined
with `JSON.parse` of the sanitized response text (`.error ()`: the AI
call throws or times out; `.ok none`: the response text does not parse
as JSON; `.ok (some v)`: the parsed value), and the store's fresh
document-id supply (the `i`-th `doc().id` drawn by the invocation). -/
structure GenEnv where
  secret : Option String
  aiResult : Except Unit (Option Js)
  genId : Nat → String

/-- The error taxonomy of `generateQuiz`, one constructor per `throw`
site: `unauthenticated`, the three `invalid-argument` rejections (plus
the unreachable `Unsupported quizType` fallback), the missing-credential
`internal` error, the failed AI call, the JSON-parse failure
(`MalformedOutput`), the wrong-cardinality rejection (`CountMismatch`,
also covering a non-array parse), and the invalid-element rejection
(`SchemaViolation`). -/
inductive GenError where
  | unauthenticated
  | invalidArgument (field : String)
  | credentialMissing
  | aiFailed
  | malformedOutput
  | countMismatch
  | schemaViolation
  deriving DecidableEq

/-- The outcome of one `generateQuiz` invocation: the returned value or
thrown error, whether control reached the Secret Resolver call
(`getGeminiApiKey`), whether it reached the Generative Text Service call
(`model.generateContent`), and the quiz document written to the
`quizzes` collection (if any). -/
structure GenOutcome where
  result : Except GenError QuizDoc
  secretFetched : Bool
  aiCalled : Bool
  written : Option QuizDoc

/-- The category validation
`!(!category || typeof category !== 'string' || category.trim() === '')`. -/
def categoryOk (v : Js) : Bool :=
  jsTruthy v && jsIsString v && !(jsTrim (jsStr v) == "")

/-- The count validation `!(!numberOfQuestions ||
typeof numberOfQuestions !== 'number' || numberOfQuestions < 1 ||
numberOfQuestions > 20)`.  Note there is no integrality check. -/
def numberOk (v : Js) : Bool :=
  jsTruthy v && jsIsNumber v && !(decide (jsNum v < 1)) && !(decide (jsNum v > 20))

/-- The quiz-type validation
`!(!quizType || !['multiple_choice', 'true_false'].includes(quizType))`. -/
def quizTypeOk (v : Js) : Bool :=
  jsTruthy v && jsIncludes ["multiple_choice", "true_false"] v

/-- The `expectedAnswers` list chosen by the `quizType` branch before the
prompt is built. -/
def expectedAnswersFor (quizType : Js) : List String :=
  if jsStrEq quizType "multiple_choice" then ["A", "B", "C", "D"]
  else if jsStrEq quizType "true_false" then ["True", "False"]
  else []

/-- Element validity, the negation of the `invalidQuestions` filter
predicate: a string, non-blank `question`; an `options` array of
non-blank strings; then per type, exactly 4 options with
`answer ∈ expectedAnswers` for multiple choice, or exactly 2 options
that are literally `True`/`False` in either order with
`answer ∈ expectedAnswers` for true/false. -/
def isValidQuestion (quizType : Js) (expectedAnswers : List String) (q : Js) : Bool :=
  let base :=
    jsIsString (q.get "question") &&
    decide (0 < (jsTrim (jsStr (q.get "question"))).length) &&
    jsIsArray (q.get "options") &&
    (jsElems (q.get "options")).all
      (fun opt => jsIsString opt && decide (0 < (jsTrim (jsStr opt)).length))
  if jsStrEq quizType "multiple_choice" then
    base && (jsElems (q.get "options")).length == 4 &&
      jsIncludes expectedAnswers (q.get "answer")
  else if jsStrEq quizType "true_false" then
    base && (jsElems (q.get "options")).length == 2 &&
      ((jsStrEq ((q.get "options").index 0) "True" &&
        jsStrEq ((q.get "options").index 1) "False") ||
       (jsStrEq ((q.get "options").index 0) "False" &&
        jsStrEq ((q.get "options").index 1) "True")) &&
      jsIncludes expectedAnswers (q.get "answer")
  else base

/-- The cardinality check
`if (!Array.isArray(questionsRaw) || questionsRaw.length !== numberOfQuestions)`. -/
def checkCount (n : ℚ) (parsed : Js) : Except GenError (List Js) :=
  match parsed with
  | .arr l => if (l.length : ℚ) = n then .ok l else .error .countMismatch
  | _ => .error .countMismatch

/-- The element check: `invalidQuestions = questionsRaw.filter(...)`;
`if (invalidQuestions.length > 0) throw ...`. -/
def checkShape (quizType : Js) (expectedAnswers : List String) (l : List Js) :
    Except GenError (List Js) :=
  let invalidQuestions := l.filter (fun q => !(isValidQuestion quizType expectedAnswers q))
  if invalidQuestions.length > 0 then .error .schemaViolation else .ok l

/-- The spec's SchemaValidator step of `generateQuiz`: cardinality check
followed by per-element shape check (JSON parsing itself is the
`.ok none` case of `GenEnv.aiResult`). -/
def schemaValidate (quizType : Js) (expectedAnswers : List String) (n : ℚ)
    (parsed : Js) : Except GenError (List Js) :=
  (checkCount n parsed).bind (checkShape quizType expectedAnswers)

/-- The visibility resolution (the spec's QuizAssembler rule):
`requestedVisibility = data.visibility || 'private'`;
`finalVisibility = isAdmin && requestedVisibility === 'global' ? 'global'
: 'private'`. -/
def resolveVisibility (isAdmin : Bool) (visibility : Js) : String :=
  if isAdmin && jsStrEq (jsOr visibility (.str "private")) "global" then "global"
  else "private"

/-- The `questionsRaw.map` step (the spec's QuestionNormalizer): each
validated element receives the next fresh document id and the requested
quiz type. -/
def normalizeQuestions (env : GenEnv) (quizType : Js) (l : List Js) :
    List QuestionDoc :=
  l.enum.map (fun p =>
    QuestionDoc.mk (env.genId p.1) (p.2.get "question") quizType
      (p.2.get "options") (p.2.get "answer"))

/-- The `quizToSave` object (the spec's QuizAssembler): the fresh quiz
id is the first document id drawn after the question ids. -/
def assembleQuiz (env : GenEnv) (caller : CallerAuth) (req : GenRequest)
    (l : List Js) : QuizDoc :=
  ⟨env.genId l.length,
   jsOr req.title (.str ("Generated Quiz - " ++ jsStr req.category)),
   req.category,
   jsOr req.difficulty (.str "medium"),
   jsOr req.event (.str ""),
   jsOr req.team (.str ""),
   jsOr req.country (.str ""),
   normalizeQuestions env req.quizType l,
   caller.uid,
   resolveVisibility caller.isAdmin req.visibility,
   req.quizType⟩

/-- The full `generateQuiz` control flow: authentication, input
validation, visibility resolution, credential fetch, AI call plus JSON
parse, schema validation, question normalisation and the single quiz
write. -/
def generateQuiz (env : GenEnv) (auth : Option CallerAuth) (req : GenRequest) :
    GenOutcome :=
  match auth with
  | none => ⟨.error .unauthenticated, false, false, none⟩
  | some caller =>
    if !(categoryOk req.category) then
      ⟨.error (.invalidArgument "category"), false, false, none⟩
    else if !(numberOk req.numberOfQuestions) then
      ⟨.error (.invalidArgument "numberOfQuestions"), false, false, none⟩
    else if !(quizTypeOk req.quizType) then
      ⟨.error (.invalidArgument "quizType"), false, false, none⟩
    else
      match env.secret with
      | none => ⟨.error .credentialMissing, true, false, none⟩
      | some _ =>
        if !(jsStrEq req.quizType "multiple_choice" || jsStrEq req.quizType "true_false") then
          ⟨.error (.invalidArgument "unsupported quizType"), true, false, none⟩
        else
          match env.aiResult with
          | .error _ => ⟨.error .aiFailed, true, true, none⟩
          | .ok none => ⟨.error .malformedOutput, true, true, none⟩
          | .ok (some parsed) =>
            match schemaValidate req.quizType (expectedAnswersFor req.quizType)
                (jsNum req.numberOfQuestions) parsed with
            | .error e => ⟨.error e, true, true, none⟩
            | .ok l =>
              let quiz := assembleQuiz env caller req l
              ⟨.ok quiz, true, true, some quiz⟩

/-- A stored question as read back from a quiz document (interface
`StoredQuestion`). -/
structure StoredQuestion where
  id : String
  text : String
  type : String
  options : List String
  correctAnswer : String
  deriving DecidableEq

/-- A stored quiz as read back from the `quizzes` collection (interface
`StoredQuiz`; only the fields the grading code touches). -/
structure StoredQuiz where
  id : String
  title : String
  questions : List StoredQuestion
  deriving DecidableEq

/-- One user answer of the submission payload (interface
`UserSelectedAnswerForFunction`). -/
structure SubmittedAnswer where
  questionId : String
  selectedOption : String
  deriving DecidableEq

/-- The submission payload (interface `QuizSubmissionData`);
`quizStartTime` is an epoch-milliseconds number. -/
structure SubmitData where
  quizId : String
  userAnswers : List SubmittedAnswer
  quizStartTime : ℚ
  deriving DecidableEq

/-- One graded answer as pushed onto `attemptDetails` (and echoed as one
`reviewDetails` entry, whose `selectedOption`/`correctOption` keys carry
`userAnswer`/`correctAnswer` unchanged). -/
structure AttemptDetail where
  questionId : String
  userAnswer : String
  correctAnswer : String
  isCorrect : Bool
  deriving DecidableEq

/-- The returned score object. -/
structure Score where
  correct : Nat
  incorrect : Int
  total : Nat
  deriving DecidableEq

/-- The value returned to the caller (message string omitted). -/
structure SubmitResponse where
  score : Score
  attemptId : String
  reviewDetails : List AttemptDetail
  timeSpentSeconds : Int
  deriving DecidableEq

/-- The attempt document written to the `quizAttempts` collection
(interface `QuizAttemptData`; the `completedAt` server timestamp is
outside the model). -/
structure AttemptDoc where
  id : String
  userId : String
  quizId : String
  score : Nat
  totalQuestions : Nat
  answers : List AttemptDetail
  timeSpent : Int
  deriving DecidableEq

/-- The error taxonomy of `submitQuiz`, one constructor per `throw`
site: missing authentication, missing/empty payload fields, unknown quiz
id, and a quiz document without a non-empty `questions` array. -/
inductive SubmitError where
  | unauthenticated
  | invalidArgument
  | notFound
  | invalidQuizState
  deriving DecidableEq

/-- JS `Map.prototype.set` on an association list: replace the value of
an existing key, otherwise append the binding. -/
def mapSet (m : List (String × String)) (k v : String) : List (String × String) :=
  if m.any (fun p => p.1 == k) then
    m.map (fun p => if p.1 == k then (k, v) else p)
  else m ++ [(k, v)]

/-- JS `Map.prototype.get`: the stored value, or `none` for `undefined`. -/
def mapGet (m : List (String × String)) (k : String) : Option String :=
  (m.find? (fun p => p.1 == k)).map (fun p => p.2)

/-- The `correctAnswersMap` construction:
`quizQuestions.forEach(q => map.set(q.id, q.correctAnswer.toString()))`
(`toString` on a string is the identity). -/
def buildKey (qs : List StoredQuestion) : List (String × String) :=
  qs.foldl (fun m q => mapSet m q.id q.correctAnswer) []

/-- The question-type lookup
`quizQuestions.find(q => q.id === questionId)?.type` (first match). -/
def findType (qs : List StoredQuestion) (qid : String) : Option String :=
  (qs.find? (fun q => q.id == qid)).map (fun q => q.type)

/-- One iteration of the grading loop: state is the running
`correctCount` and the `attemptDetails` accumulated so far. -/
def gradeOne (quizQuestions : List StoredQuestion)
    (correctAnswersMap : List (String × String))
    (st : Nat × List AttemptDetail) (ua : SubmittedAnswer) :
    Nat × List AttemptDetail :=
  match mapGet correctAnswersMap ua.questionId with
  | some correctOption =>
      let isCorrect :=
        if findType quizQuestions ua.questionId == some "multiple_choice" then
          charAt0 ua.selectedOption == correctOption
        else if findType quizQuestions ua.questionId == some "true_false" then
          ua.selectedOption == correctOption
        else false
      (if isCorrect then st.1 + 1 else st.1,
       st.2 ++ [⟨ua.questionId, ua.selectedOption, correctOption, isCorrect⟩])
  | none =>
      (st.1, st.2 ++ [⟨ua.questionId, ua.selectedOption, "N/A (Question Not Found)", false⟩])

/-- The whole grading loop (the spec's GradingEngine) over the submitted
answers in submission order. -/
def gradeAll (quizQuestions : List StoredQuestion)
    (userAnswers : List SubmittedAnswer) : Nat × List AttemptDetail :=
  userAnswers.foldl (gradeOne quizQuestions (buildKey quizQuestions)) (0, [])

/-- The full `submitQuiz` control flow: authentication, payload
validation, quiz read, the no-questions integrity check, grading, the
elapsed-time computation, and the attempt write.  `store` is the
`quizzes` collection read, `now` is `Date.now()` in epoch milliseconds
and `attemptRefId` is the store-assigned id of `newAttemptRef`. -/
def submitQuiz (store : String → Option StoredQuiz) (now : ℚ)
    (attemptRefId : String) (auth : Option String) (dat : SubmitData) :
    Except SubmitError (SubmitResponse × AttemptDoc) :=
  match auth with
  | none => .error .unauthenticated
  | some userId =>
    if dat.quizId == "" || dat.userAnswers.length == 0 || dat.quizStartTime == 0 then
      .error .invalidArgument
    else
      match store dat.quizId with
      | none => .error .notFound
      | some quizData =>
        if quizData.questions.length == 0 then .error .invalidQuizState
        else
          let quizQuestions := quizData.questions
          let totalQuestions := quizQuestions.length
          let graded := gradeAll quizQuestions dat.userAnswers
          let correctCount := graded.1
          let attemptDetails := graded.2
          let incorrectCount : Int := (totalQuestions : Int) - (correctCount : Int)
          let timeSpentSeconds := jsRound ((now - dat.quizStartTime) / 1000)
          .ok (⟨⟨correctCount, incorrectCount, totalQuestions⟩, attemptRefId,
                attemptDetails, timeSpentSeconds⟩,
               ⟨attemptRefId, userId, dat.quizId, correctCount, totalQuestions,
                attemptDetails, timeSpentSeconds⟩)

def c3Question : StoredQuestion :=
  ⟨"q1", "Capital of France?", "multiple_choice",
   ["A. Paris", "B. London", "C. Rome", "D. Berlin"], "A"⟩

def c4Questions : List StoredQuestion :=
  [⟨"q1", "Capital of France?", "multiple_choice",
    ["A. Paris", "B. London", "C. Rome", "D. Berlin"], "A"⟩,
   ⟨"q2", "The sky is blue.", "true_false", ["True", "False"], "True"⟩]

def c8Store : String → Option StoredQuiz := fun s =>
  if s == "qz" then
    some ⟨"qz", "Weather quiz",
      [⟨"q1", "The sky is blue.", "true_false", ["True", "False"], "True"⟩]⟩
  else none

def c8Run : Except SubmitError (SubmitResponse × AttemptDoc) :=
  submitQuiz c8Store 6000 "att1" (some "u1") ⟨"qz", [⟨"q1", "True"⟩], 1000⟩

def c8Res : SubmitResponse × AttemptDoc :=
  c8Run.toOption.getD (⟨⟨0, 0, 0⟩, "", [], 0⟩, ⟨"", "", "", 0, 0, [], 0⟩)

def c10Store : String → Option StoredQuiz := fun s =>
  if s == "qz" then
    some ⟨"qz", "Capitals",
      [⟨"q1", "Capital of France?", "multiple_choice",
        ["A. Paris", "B. London", "C. Rome", "D. Berlin"], "A"⟩]⟩
  else none

def c1Env : GenEnv :=
  ⟨some "api-key",
   .ok (some (.arr [.obj [("question", .str "The sky is blue."),
     ("options", .arr [.str "True", .str "False"]), ("answer", .str "True")]])),
   fun i => "doc" ++ toString i⟩

def c1Req : GenRequest :=
  ⟨.undefined, .str "football", .undefined, .num 1, .undefined, .undefined, .undefined,
   .str "global", .str "true_false"⟩

def c1QuizUser : QuizDoc :=
  ((generateQuiz c1Env (some ⟨"u1", false⟩) c1Req).written).getD
    ⟨"", .undefined, .undefined, .undefined, .undefined, .undefined, .undefined, [], "", "", .undefined⟩

def c1QuizAdmin : QuizDoc :=
  ((generateQuiz c1Env (some ⟨"u1", true⟩) c1Req).written).getD
    ⟨"", .undefined, .undefined, .undefined, .undefined, .undefined, .undefined, [], "", "", .undefined⟩

def c2Env : GenEnv :=
  ⟨some "api-key",
   .ok (some (.arr [.obj [("question", .str "Capital of France?"),
     ("options", .arr [.str "A. Paris", .str "B. London", .str "C. Rome"]),
     ("answer", .str "A")]])),
   fun i => "doc" ++ toString i⟩

def c2Req : GenRequest :=
  ⟨.undefined, .str "football", .undefined, .num 1, .undefined, .undefined, .undefined,
   .undefined, .str "multiple_choice"⟩

def c7Req : GenRequest :=
  ⟨.undefined, .str "football", .undefined, .num (mkRat 5 2), .undefined, .undefined, .undefined,
   .undefined, .str "true_false"⟩

def c5Bad : Js :=
  .obj [("question", .str ""), ("options", .arr [.str "True", .str "False"]),
    ("answer", .str "True")]

def c5Env : GenEnv :=
  ⟨some "api-key", .ok (some (.arr [])), fun i => "doc" ++ toString i⟩

def c5Req : GenRequest :=
  ⟨.undefined, .str "football", .undefined, .num 3, .undefined, .undefined, .undefined,
   .undefined, .str "true_false"⟩

def c6Elem : Js :=
  .obj [("question", .str "The sky is blue."),
    ("options", .arr [.str "True", .str "False"]), ("answer", .str "True")]

def c6Env : GenEnv :=
  ⟨some "api-key", .ok (some (.arr [c6Elem, c6Elem, c6Elem])),
   fun i => "doc" ++ toString i⟩

def c6Req : GenRequest :=
  ⟨.undefined, .str "football", .undefined, .num 3, .undefined, .undefined, .undefined,
   .undefined, .str "true_false"⟩

/-! ## Theorems -/

/-! ## Helper lemmas -/
theorem stringLengthPos (s : String) : 0 < s.length ↔ s ≠ "" := by
  constructor
  · intro h he
    subst he
    exact absurd h (by decide)
  · intro h
    cases s with
    | mk data =>
      cases data with
      | nil => exact absurd rfl h
      | cons c cs => simp [String.length]

theorem quizTypeOk_strEq (v : Js) (h : quizTypeOk v = true) :
    (jsStrEq v "multiple_choice" || jsStrEq v "true_false") = true := by
  cases v <;> simp_all [quizTypeOk, jsIncludes, jsStrEq, jsTruthy, List.contains]

theorem generateQuiz_run_ok
    (env : GenEnv) (caller : CallerAuth) (req : GenRequest) (s : String)
    (parsed : Js) (l : List Js)
    (hcat : categoryOk req.category = true)
    (hnum : numberOk req.numberOfQuestions = true)
    (hqt : quizTypeOk req.quizType = true)
    (hsec : env.secret = some s)
    (hai : env.aiResult = .ok (some parsed))
    (hval : schemaValidate req.quizType (expectedAnswersFor req.quizType)
        (jsNum req.numberOfQuestions) parsed = .ok l) :
    generateQuiz env (some caller) req =
      ⟨.ok (assembleQuiz env caller req l), true, true,
       some (assembleQuiz env caller req l)⟩ := by
  unfold generateQuiz
  rw [hcat, hnum, hqt, hsec, hai, quizTypeOk_strEq req.quizType hqt]
  dsimp only
  rw [hval]
  simp

theorem generateQuiz_written_some
    (env : GenEnv) (auth : Option CallerAuth) (req : GenRequest) (quiz : QuizDoc)
    (hw : (generateQuiz env auth req).written = some quiz) :
    ∃ caller parsed l, auth = some caller ∧
      env.aiResult = .ok (some parsed) ∧
      schemaValidate req.quizType (expectedAnswersFor req.quizType)
        (jsNum req.numberOfQuestions) parsed = .ok l ∧
      quiz = assembleQuiz env caller req l := by
  cases auth with
  | none => simp [generateQuiz] at hw
  | some caller =>
    unfold generateQuiz at hw
    dsimp only at hw
    repeat' split at hw
    all_goals simp at hw
    rename_i x1 parsed hai x2 l hval
    exact ⟨caller, parsed, l, rfl, hai, hval, hw.symm⟩

theorem gradeOne_snd_length (qs : List StoredQuestion) (m : List (String × String))
    (st : Nat × List AttemptDetail) (ua : SubmittedAnswer) :
    ((gradeOne qs m st ua).2).length = st.2.length + 1 := by
  unfold gradeOne
  cases hm : mapGet m ua.questionId <;> simp [hm]

theorem gradeAll_foldl_length (qs : List StoredQuestion)
    (uas : List SubmittedAnswer) :
    ∀ st : Nat × List AttemptDetail,
      ((uas.foldl (gradeOne qs (buildKey qs)) st).2).length = st.2.length + uas.length := by
  induction uas with
  | nil => intro st; simp
  | cons a as ih =>
      intro st
      rw [List.foldl_cons, ih, gradeOne_snd_length]
      simp [List.length_cons]
      omega

theorem submitQuiz_ok_eq (store : String → Option StoredQuiz) (now : ℚ)
    (attId uid : String) (dat : SubmitData) (r : SubmitResponse × AttemptDoc)
    (hok : submitQuiz store now attId (some uid) dat = .ok r) :
    ∃ quiz, store dat.quizId = some quiz ∧
      r = (⟨⟨(gradeAll quiz.questions dat.userAnswers).1,
             (quiz.questions.length : ℤ) - ((gradeAll quiz.questions dat.userAnswers).1 : ℤ),
             quiz.questions.length⟩, attId,
            (gradeAll quiz.questions dat.userAnswers).2,
            jsRound ((now - dat.quizStartTime) / 1000)⟩,
           ⟨attId, uid, dat.quizId, (gradeAll quiz.questions dat.userAnswers).1,
            quiz.questions.length, (gradeAll quiz.questions dat.userAnswers).2,
            jsRound ((now - dat.quizStartTime) / 1000)⟩) := by
  unfold submitQuiz at hok
  dsimp only at hok
  repeat' split at hok
  all_goals simp at hok
  rename_i x quiz hstore hlen
  exact ⟨quiz, hstore, hok.symm⟩

/-- C3 (unknown-question tolerance): grading a submitted answer whose
question id is absent from the resolved answer key appends exactly the
sentinel detail with correct-answer value `N/A (Question Not Found)` and
`isCorrect = false`, leaving the running correct count unchanged; every
submitted answer always produces exactly one detail entry in submission
order (so the remaining answers are still graded); and a well-formed
submission never fails, whatever unknown ids it contains. -/
theorem unknown_question_tolerance
    (qs : List StoredQuestion) (m : List (String × String)) (c : Nat)
    (d : List AttemptDetail) (a : SubmittedAnswer)
    (hmiss : mapGet m a.questionId = none) :
    gradeOne qs m (c, d) a =
      (c, d ++ [⟨a.questionId, a.selectedOption, "N/A (Question Not Found)", false⟩]) ∧
    (∀ uas : List SubmittedAnswer, ((gradeAll qs uas).2).length = uas.length) ∧
    (∀ (store : String → Option StoredQuiz) (now : ℚ) (attId uid : String)
       (dat : SubmitData) (quiz : StoredQuiz),
       store dat.quizId = some quiz → dat.quizId ≠ "" → dat.userAnswers ≠ [] →
       dat.quizStartTime ≠ 0 → quiz.questions ≠ [] →
       ∃ r, submitQuiz store now attId (some uid) dat = .ok r) := by
  refine ⟨?_, ?_, ?_⟩
  · simp [gradeOne, hmiss]
  · intro uas
    have h := gradeAll_foldl_length qs uas (0, [])
    simpa [gradeAll] using h
  · intro store now attId uid dat quiz hstore h1 h2 h3 h4
    have hc1 : (dat.quizId == "") = false := by simp [h1]
    have hc2 : (dat.userAnswers.length == 0) = false := by
      cases huas : dat.userAnswers with
      | nil => exact absurd huas h2
      | cons x xs => simp
    have hc3 : (dat.quizStartTime == 0) = false := by simp [h3]
    have hq : (quiz.questions.length == 0) = false := by
      cases hqq : quiz.questions with
      | nil => exact absurd hqq h4
      | cons x xs => simp [hqq]
    unfold submitQuiz
    dsimp only
    rw [hc1, hc2, hc3, hstore]
    simp [hq]

/-- C3 witness: grading an answer for the unknown id `zz` against a quiz
holding only `q1` records the sentinel detail and keeps grading. -/
theorem unknown_question_tolerance_witness :
    mapGet (buildKey [c3Question]) "zz" = none ∧
    gradeOne [c3Question] (buildKey [c3Question]) (0, []) ⟨"zz", "X"⟩ =
      (0, [⟨"zz", "X", "N/A (Question Not Found)", false⟩]) ∧
    ((gradeAll [c3Question] [⟨"zz", "X"⟩, ⟨"q1", "A. Paris"⟩]).2).length = 2 := by
  have hm : mapGet (buildKey [c3Question]) "zz" = none := rfl
  have h := unknown_question_tolerance [c3Question] (buildKey [c3Question])
    0 [] ⟨"zz", "X"⟩ hm
  exact ⟨hm, h.1, h.2.1 [⟨"zz", "X"⟩, ⟨"q1", "A. Paris"⟩]⟩

/-- C4 (type-aware comparison): an answer to a question found in the key
is graded, for a multiple-choice question, correct exactly when the first
character of the selected option equals the stored correct-answer token,
and for a true/false question, correct exactly when the selected option
is string-equal to the stored correct answer, in both cases appending the
detail entry with the stored token as `correctOption`. -/
theorem type_aware_comparison
    (qs : List StoredQuestion) (m : List (String × String)) (c : Nat)
    (d : List AttemptDetail) (ua : SubmittedAnswer) (co : String)
    (hco : mapGet m ua.questionId = some co) :
    (findType qs ua.questionId = some "multiple_choice" →
      gradeOne qs m (c, d) ua =
        (if charAt0 ua.selectedOption = co then c + 1 else c,
         d ++ [⟨ua.questionId, ua.selectedOption, co, charAt0 ua.selectedOption == co⟩])) ∧
    (findType qs ua.questionId = some "true_false" →
      gradeOne qs m (c, d) ua =
        (if ua.selectedOption = co then c + 1 else c,
         d ++ [⟨ua.questionId, ua.selectedOption, co, ua.selectedOption == co⟩])) := by
  constructor
  · intro h
    simp [gradeOne, hco, h]
  · intro h
    simp [gradeOne, hco, h]

/-- C4 witness: against key `q1 ↦ A`, the labelled selection `A. Paris`
and the bare label `A` grade correct while `B. London` grades incorrect
with `correctOption = A`; for the true/false question `q2 ↦ True`, the
literal `True` grades correct and the unnormalised `true` does not. -/
theorem type_aware_comparison_witness :
    mapGet (buildKey c4Questions) "q1" = some "A" ∧
    gradeOne c4Questions (buildKey c4Questions) (0, []) ⟨"q1", "A. Paris"⟩ =
      (1, [⟨"q1", "A. Paris", "A", true⟩]) ∧
    gradeOne c4Questions (buildKey c4Questions) (0, []) ⟨"q1", "A"⟩ =
      (1, [⟨"q1", "A", "A", true⟩]) ∧
    gradeOne c4Questions (buildKey c4Questions) (0, []) ⟨"q1", "B. London"⟩ =
      (0, [⟨"q1", "B. London", "A", false⟩]) ∧
    gradeOne c4Questions (buildKey c4Questions) (0, []) ⟨"q2", "True"⟩ =
      (1, [⟨"q2", "True", "True", true⟩]) ∧
    gradeOne c4Questions (buildKey c4Questions) (0, []) ⟨"q2", "true"⟩ =
      (0, [⟨"q2", "true", "True", false⟩]) := by
  have hmc : ∀ sel : String,
      gradeOne c4Questions (buildKey c4Questions) (0, []) ⟨"q1", sel⟩ =
        (if charAt0 sel = "A" then 0 + 1 else 0,
         [] ++ [⟨"q1", sel, "A", charAt0 sel == "A"⟩]) := fun sel =>
    (type_aware_comparison c4Questions (buildKey c4Questions) 0 [] ⟨"q1", sel⟩ "A"
      rfl).1 rfl
  have htf : ∀ sel : String,
      gradeOne c4Questions (buildKey c4Questions) (0, []) ⟨"q2", sel⟩ =
        (if sel = "True" then 0 + 1 else 0,
         [] ++ [⟨"q2", sel, "True", sel == "True"⟩]) := fun sel =>
    (type_aware_comparison c4Questions (buildKey c4Questions) 0 [] ⟨"q2", sel⟩ "True"
      rfl).2 rfl
  refine ⟨rfl, ?_, ?_, ?_, ?_, ?_⟩
  · rw [hmc "A. Paris"]; decide
  · rw [hmc "A"]; decide
  · rw [hmc "B. London"]; decide
  · rw [htf "True"]; decide
  · rw [htf "true"]; decide

/-- C8 (amended): the returned and persisted elapsed time of every
successful grading equals `Math.round((now − quizStartTime) / 1000)`
with no non-negativity clamp, so it goes negative as soon as
`quizStartTime` exceeds the grading time by more than half a second. -/
theorem elapsed_time_amended
    (store : String → Option StoredQuiz) (now : ℚ) (attId uid : String)
    (dat : SubmitData) (r : SubmitResponse × AttemptDoc)
    (hok : submitQuiz store now attId (some uid) dat = .ok r) :
    r.1.timeSpentSeconds = jsRound ((now - dat.quizStartTime) / 1000) ∧
    r.2.timeSpent = r.1.timeSpentSeconds := by
  obtain ⟨quiz, hstore, hr⟩ := submitQuiz_ok_eq store now attId uid dat r hok
  subst hr
  exact ⟨rfl, rfl⟩

/-- C8 counterexample: grading at time 1000 ms a submission whose
`quizStartTime` is 6000 ms succeeds and both the returned and the
persisted elapsed time are `-5`, a negative value — the claimed
clamping to non-negative does not happen. -/
theorem elapsed_time_counterexample :
    (submitQuiz c8Store 1000 "att1" (some "u1") ⟨"qz", [⟨"q1", "True"⟩], 6000⟩).map
        (fun p => p.1.timeSpentSeconds) = .ok (-5) ∧
    (submitQuiz c8Store 1000 "att1" (some "u1") ⟨"qz", [⟨"q1", "True"⟩], 6000⟩).map
        (fun p => p.2.timeSpent) = .ok (-5) ∧
    ((-5 : ℤ) < 0) := by
  have h5 : jsRound (((1000 : ℚ) - 6000) / 1000) = -5 := by
    unfold jsRound
    norm_num
  have h1 : (submitQuiz c8Store 1000 "att1" (some "u1")
      ⟨"qz", [⟨"q1", "True"⟩], 6000⟩).map (fun p => p.1.timeSpentSeconds) =
      .ok (jsRound (((1000 : ℚ) - 6000) / 1000)) := rfl
  have h2 : (submitQuiz c8Store 1000 "att1" (some "u1")
      ⟨"qz", [⟨"q1", "True"⟩], 6000⟩).map (fun p => p.2.timeSpent) =
      .ok (jsRound (((1000 : ℚ) - 6000) / 1000)) := rfl
  refine ⟨?_, ?_, by decide⟩
  · rw [h1, h5]
  · rw [h2, h5]

/-- C8 witness: a concrete successful grading at time 6000 ms of a
submission started at 1000 ms, whose elapsed time is
`Math.round((6000 − 1000)/1000) = 5` seconds. -/
theorem elapsed_time_witness :
    c8Run = .ok c8Res ∧
    c8Res.1.timeSpentSeconds = jsRound (((6000 : ℚ) - 1000) / 1000) ∧
    jsRound (((6000 : ℚ) - 1000) / 1000) = 5 := by
  have hok : c8Run = .ok c8Res := rfl
  refine ⟨hok, ?_, by unfold jsRound; norm_num⟩
  exact (elapsed_time_amended c8Store 6000 "att1" "u1"
    ⟨"qz", [⟨"q1", "True"⟩], 1000⟩ c8Res hok).1

/-- C10 (score arithmetic): every successful grading returns
`incorrect = total − correct` where `total` is the number of stored
questions and `correct` counts the submitted answers graded correct;
submitted answers are not deduplicated, and the concrete submission
answering `q1` twice against a one-question quiz yields
`correct = 2, total = 1, incorrect = −1`. -/
theorem score_arithmetic_invariant :
    (∀ (store : String → Option StoredQuiz) (now : ℚ) (attId uid : String)
       (dat : SubmitData) (quiz : StoredQuiz) (r : SubmitResponse × AttemptDoc),
       store dat.quizId = some quiz →
       submitQuiz store now attId (some uid) dat = .ok r →
       r.1.score.incorrect = (r.1.score.total : ℤ) - (r.1.score.correct : ℤ) ∧
       r.1.score.total = quiz.questions.length ∧
       r.1.score.correct = (gradeAll quiz.questions dat.userAnswers).1) ∧
    (submitQuiz c10Store 1000 "att1" (some "u1")
        ⟨"qz", [⟨"q1", "A. Paris"⟩, ⟨"q1", "A. Rome"⟩], 6000⟩).map
        (fun p => (p.1.score.correct, p.1.score.total, p.1.score.incorrect)) =
      .ok (2, 1, -1) := by
  constructor
  · intro store now attId uid dat quiz r hstore hok
    obtain ⟨quiz', hstore', hr⟩ := submitQuiz_ok_eq store now attId uid dat r hok
    rw [hstore] at hstore'
    cases Option.some.inj hstore'
    subst hr
    exact ⟨rfl, rfl, rfl⟩
  · decide

/-- C10 witness: the universal part of the invariant applied to the
concrete double-answer run. -/
theorem score_arithmetic_invariant_witness :
    (submitQuiz c10Store 1000 "att1" (some "u1")
        ⟨"qz", [⟨"q1", "A. Paris"⟩, ⟨"q1", "A. Rome"⟩], 6000⟩).map
        (fun p => p.1.score.incorrect) = .ok (-1) ∧
    ((-1 : ℤ) < 0) := by
  have hok : submitQuiz c10Store 1000 "att1" (some "u1")
      ⟨"qz", [⟨"q1", "A. Paris"⟩, ⟨"q1", "A. Rome"⟩], 6000⟩ =
      .ok ((submitQuiz c10Store 1000 "att1" (some "u1")
        ⟨"qz", [⟨"q1", "A. Paris"⟩, ⟨"q1", "A. Rome"⟩], 6000⟩).toOption.getD
          (⟨⟨0, 0, 0⟩, "", [], 0⟩, ⟨"", "", "", 0, 0, [], 0⟩)) := rfl
  have h := (score_arithmetic_invariant.1 c10Store 1000 "att1" "u1"
    ⟨"qz", [⟨"q1", "A. Paris"⟩, ⟨"q1", "A. Rome"⟩], 6000⟩ _ _ rfl hok).1
  refine ⟨?_, by decide⟩
  rw [hok]
  simp only [Except.map]
  rw [h]
  decide

/-- C1 (visibility enforcement): whenever the pipeline persists a quiz,
a caller without the administrative capability gets
`visibility = "private"` regardless of the requested value, and a caller
with it gets exactly the requested visibility, an absent request value
defaulting to `"private"`. -/
theorem visibility_enforcement
    (env : GenEnv) (auth : Option CallerAuth) (req : GenRequest)
    (caller : CallerAuth) (quiz : QuizDoc)
    (hauth : auth = some caller)
    (hw : (generateQuiz env auth req).written = some quiz) :
    (caller.isAdmin = false → quiz.visibility = "private") ∧
    (caller.isAdmin = true →
      ((req.visibility = Js.str "global" → quiz.visibility = "global") ∧
       (req.visibility = Js.str "private" → quiz.visibility = "private") ∧
       (req.visibility = Js.undefined → quiz.visibility = "private"))) := by
  obtain ⟨caller', parsed, l, hc, hai, hval, hq⟩ :=
    generateQuiz_written_some env auth req quiz hw
  rw [hauth] at hc
  cases Option.some.inj hc
  subst hq
  constructor
  · intro hadm
    simp [assembleQuiz, resolveVisibility, hadm]
  · intro hadm
    refine ⟨?_, ?_, ?_⟩ <;> intro hv <;>
      simp [assembleQuiz, resolveVisibility, hadm, hv, jsOr, jsTruthy, jsStrEq]

/-- C1 witness: the same `visibility = "global"` request persists a
private quiz for a non-admin caller and a global quiz for an admin. -/
theorem visibility_enforcement_witness :
    (generateQuiz c1Env (some ⟨"u1", false⟩) c1Req).written = some c1QuizUser ∧
    c1QuizUser.visibility = "private" ∧
    (generateQuiz c1Env (some ⟨"u1", true⟩) c1Req).written = some c1QuizAdmin ∧
    c1QuizAdmin.visibility = "global" := by
  have hw1 : (generateQuiz c1Env (some ⟨"u1", false⟩) c1Req).written =
      some c1QuizUser := rfl
  have hw2 : (generateQuiz c1Env (some ⟨"u1", true⟩) c1Req).written =
      some c1QuizAdmin := rfl
  refine ⟨hw1, ?_, hw2, ?_⟩
  · exact (visibility_enforcement c1Env _ c1Req ⟨"u1", false⟩ c1QuizUser rfl hw1).1 rfl
  · exact ((visibility_enforcement c1Env _ c1Req ⟨"u1", true⟩ c1QuizAdmin rfl
      hw2).2 rfl).1 rfl

/-- C2 (schema rejection is total): as soon as one parsed element
violates the shape invariant for the requested quiz type, the element
check rejects the whole array with the `SchemaViolation` error, an
accepted array is always returned unchanged (never shortened), and the
pipeline writes no quiz document. -/
theorem schema_rejection_total
    (env : GenEnv) (auth : Option CallerAuth) (req : GenRequest)
    (l : List Js) (q : Js)
    (hai : env.aiResult = .ok (some (.arr l)))
    (hq : q ∈ l)
    (hbad : isValidQuestion req.quizType (expectedAnswersFor req.quizType) q = false) :
    checkShape req.quizType (expectedAnswersFor req.quizType) l =
      .error .schemaViolation ∧
    (∀ l₁ l₂ : List Js,
       checkShape req.quizType (expectedAnswersFor req.quizType) l₁ = .ok l₂ →
       l₂ = l₁) ∧
    (generateQuiz env auth req).written = none := by
  have hfil : 0 < (l.filter
      (fun x => !(isValidQuestion req.quizType (expectedAnswersFor req.quizType) x))).length := by
    apply List.length_pos.mpr
    apply List.ne_nil_of_mem (a := q)
    apply List.mem_filter.mpr
    exact ⟨hq, by simp [hbad]⟩
  have hshape : checkShape req.quizType (expectedAnswersFor req.quizType) l =
      .error .schemaViolation := by
    unfold checkShape
    simp only [if_pos hfil]
  refine ⟨hshape, ?_, ?_⟩
  · intro l₁ l₂ hok
    unfold checkShape at hok
    dsimp only at hok
    split at hok
    · exact absurd hok (by simp)
    · exact (Except.ok.inj hok).symm
  · cases hwr : (generateQuiz env auth req).written with
    | none => rfl
    | some quiz =>
      exfalso
      obtain ⟨caller, parsed, l', hc, hai', hval, hquiz⟩ :=
        generateQuiz_written_some env auth req quiz hwr
      rw [hai] at hai'
      have hp : parsed = Js.arr l := (Option.some.inj (Except.ok.inj hai')).symm
      subst hp
      unfold schemaValidate checkCount at hval
      dsimp only at hval
      by_cases hlen : ((l.length : ℚ) = jsNum req.numberOfQuestions)
      · rw [if_pos hlen] at hval
        simp only [Except.bind] at hval
        rw [hshape] at hval
        exact absurd hval (by simp)
      · rw [if_neg hlen] at hval
        simp only [Except.bind] at hval
        exact absurd hval (by simp)

/-- C2 witness: a multiple-choice element with only 3 options (the
spec's round-trip example 3) fails the element check, the batch is
rejected with `SchemaViolation`, and nothing is written. -/
theorem schema_rejection_total_witness :
    isValidQuestion (.str "multiple_choice") ["A", "B", "C", "D"]
      (.obj [("question", .str "Capital of France?"),
        ("options", .arr [.str "A. Paris", .str "B. London", .str "C. Rome"]),
        ("answer", .str "A")]) = false ∧
    checkShape (.str "multiple_choice") ["A", "B", "C", "D"]
      [.obj [("question", .str "Capital of France?"),
        ("options", .arr [.str "A. Paris", .str "B. London", .str "C. Rome"]),
        ("answer", .str "A")]] = .error .schemaViolation ∧
    (generateQuiz c2Env (some ⟨"u1", false⟩) c2Req).written = none ∧
    (generateQuiz c2Env (some ⟨"u1", false⟩) c2Req).result =
      .error .schemaViolation := by
  have h := schema_rejection_total c2Env (some ⟨"u1", false⟩) c2Req _ _ rfl
    (List.mem_singleton.mpr rfl) (by decide)
  exact ⟨by decide, h.1, h.2.2, rfl⟩

/-- C7 (amended): a request whose `numberOfQuestions` is missing,
non-numeric, zero, below 1 or above 20 is rejected with an
`InvalidArgument` error before the Secret Resolver or the Generative
Text Service is reached; the counterexample shows a non-integer value
inside the range is not rejected. -/
theorem input_range_rejection_amended
    (env : GenEnv) (caller : CallerAuth) (req : GenRequest)
    (h : numberOk req.numberOfQuestions = false) :
    (∃ f, (generateQuiz env (some caller) req).result = .error (.invalidArgument f)) ∧
    (generateQuiz env (some caller) req).secretFetched = false ∧
    (generateQuiz env (some caller) req).aiCalled = false := by
  unfold generateQuiz
  dsimp only
  by_cases hcat : categoryOk req.category
  · rw [hcat, h]
    exact ⟨⟨"numberOfQuestions", rfl⟩, rfl, rfl⟩
  · rw [Bool.not_eq_true] at hcat
    rw [hcat]
    exact ⟨⟨"category", rfl⟩, rfl, rfl⟩

/-- C7 witness: `numberOfQuestions = 0` (also covering the "missing"
reading, since `0` is falsy) is rejected before any external call. -/
theorem input_range_rejection_witness :
    numberOk (.num 0) = false ∧
    (generateQuiz c1Env (some ⟨"u1", false⟩)
      ⟨.undefined, .str "football", .undefined, .num 0, .undefined, .undefined, .undefined,
       .undefined, .str "true_false"⟩).result =
      .error (.invalidArgument "numberOfQuestions") ∧
    (generateQuiz c1Env (some ⟨"u1", false⟩)
      ⟨.undefined, .str "football", .undefined, .num 0, .undefined, .undefined, .undefined,
       .undefined, .str "true_false"⟩).secretFetched = false := by
  have h := input_range_rejection_amended c1Env ⟨"u1", false⟩
    ⟨.undefined, .str "football", .undefined, .num 0, .undefined, .undefined, .undefined,
     .undefined, .str "true_false"⟩ (by decide)
  exact ⟨by decide, rfl, h.2.1⟩

/-- C7 counterexample: the non-integer `numberOfQuestions = 5/2` passes
input validation, the Secret Resolver and the Generative Text Service
are both invoked, and the request fails only afterwards with the
`CountMismatch` error — not with `InvalidArgument` before any external
call as claimed. -/
theorem input_range_rejection_counterexample :
    numberOk (.num (mkRat 5 2)) = true ∧
    (generateQuiz c1Env (some ⟨"u1", false⟩) c7Req).secretFetched = true ∧
    (generateQuiz c1Env (some ⟨"u1", false⟩) c7Req).aiCalled = true ∧
    (generateQuiz c1Env (some ⟨"u1", false⟩) c7Req).result =
      .error .countMismatch := by
  exact ⟨by decide, rfl, rfl, rfl⟩

/-- C5 counterexample: a 1-element parse matching the requested count 1
is nevertheless rejected (its question text is blank), so "accepts if
and only if the length equals the requested count" fails in the "if"
direction. -/
theorem count_invariant_counterexample :
    (([c5Bad] : List Js).length : ℚ) = 1 ∧
    schemaValidate (.str "true_false") ["True", "False"] 1 (.arr [c5Bad]) =
      .error .schemaViolation := by
  exact ⟨by decide, rfl⟩

/-- C5 (amended): the validator accepts only parses that are arrays of
exactly the requested length; every array of any other length is
rejected with `CountMismatch` and no quiz document is written.  Matching
length alone is not sufficient for acceptance (see the
counterexample). -/
theorem count_invariant_amended
    (quizType parsed : Js) (expectedAnswers : List String) (n : ℚ)
    (res l : List Js) (env : GenEnv) (auth : Option CallerAuth)
    (req : GenRequest)
    (hn : req.numberOfQuestions = .num n)
    (hai : env.aiResult = .ok (some (.arr l)))
    (hlen : (l.length : ℚ) ≠ n) :
    (schemaValidate quizType expectedAnswers n parsed = .ok res →
       ∃ l₀, parsed = .arr l₀ ∧ (l₀.length : ℚ) = n) ∧
    schemaValidate quizType expectedAnswers n (.arr l) = .error .countMismatch ∧
    (generateQuiz env auth req).written = none := by
  refine ⟨?_, ?_, ?_⟩
  · intro hok
    unfold schemaValidate checkCount at hok
    cases parsed with
    | arr l₀ =>
      dsimp only at hok
      by_cases hl : ((l₀.length : ℚ) = n)
      · exact ⟨l₀, rfl, hl⟩
      · rw [if_neg hl] at hok
        exact absurd hok (by simp [Except.bind])
    | undefined => exact absurd hok (by simp [Except.bind])
    | null => exact absurd hok (by simp [Except.bind])
    | str s => exact absurd hok (by simp [Except.bind])
    | num q => exact absurd hok (by simp [Except.bind])
    | bool b => exact absurd hok (by simp [Except.bind])
    | obj fields => exact absurd hok (by simp [Except.bind])
  · unfold schemaValidate checkCount
    dsimp only
    rw [if_neg hlen]
    rfl
  · cases hwr : (generateQuiz env auth req).written with
    | none => rfl
    | some quiz =>
      exfalso
      obtain ⟨caller, parsed, l', hc, hai', hval, hquiz⟩ :=
        generateQuiz_written_some env auth req quiz hwr
      rw [hai] at hai'
      have hp : parsed = Js.arr l := (Option.some.inj (Except.ok.inj hai')).symm
      subst hp
      rw [hn] at hval
      unfold schemaValidate checkCount at hval
      dsimp only [jsNum] at hval
      rw [if_neg hlen] at hval
      exact absurd hval (by simp [Except.bind])

/-- C5 witness: the model returns 0 elements against a request for 3
(the shape of round-trip example 2): `CountMismatch` and nothing is
persisted. -/
theorem count_invariant_witness :
    schemaValidate (.str "true_false") ["True", "False"] 3 (.arr []) =
      .error .countMismatch ∧
    (generateQuiz c5Env (some ⟨"u1", false⟩) c5Req).written = none := by
  have h := count_invariant_amended (.str "true_false") (.arr [])
    ["True", "False"] 3 [] [] c5Env (some ⟨"u1", false⟩) c5Req rfl rfl (by decide)
  exact ⟨h.2.1, h.2.2⟩

theorem jsStrEq_eq {v : Js} {s : String} (h : jsStrEq v s = true) : v = .str s := by
  cases v with
  | str t =>
    simp only [jsStrEq, beq_iff_eq] at h
    rw [h]
  | undefined => exact absurd h (by simp [jsStrEq])
  | null => exact absurd h (by simp [jsStrEq])
  | num q => exact absurd h (by simp [jsStrEq])
  | bool b => exact absurd h (by simp [jsStrEq])
  | arr l => exact absurd h (by simp [jsStrEq])
  | obj f => exact absurd h (by simp [jsStrEq])

theorem tf_element_iff (q : Js) :
    isValidQuestion (.str "true_false") ["True", "False"] q = true ↔
      (∃ t, q.get "question" = .str t ∧ jsTrim t ≠ "" ∧
       (q.get "options" = .arr [.str "True", .str "False"] ∨
        q.get "options" = .arr [.str "False", .str "True"]) ∧
       (q.get "answer" = .str "True" ∨ q.get "answer" = .str "False")) := by
  constructor
  · intro hv
    unfold isValidQuestion at hv
    rw [if_neg (by decide), if_pos (by decide)] at hv
    simp only [Bool.and_eq_true] at hv
    obtain ⟨⟨⟨⟨⟨⟨hqs, hqt⟩, hoa⟩, hoe⟩, hlen⟩, hpair⟩, hans⟩ := hv
    cases hq : q.get "question" with
    | str t =>
      refine ⟨t, rfl, ?_, ?_, ?_⟩
      · rw [hq] at hqt
        simp only [jsStr] at hqt
        rw [decide_eq_true_eq] at hqt
        exact (stringLengthPos _).mp hqt
      · cases ho : q.get "options" with
        | arr opts =>
          rw [ho] at hlen hpair
          simp only [jsElems] at hlen
          rw [beq_iff_eq] at hlen
          match opts, hlen with
          | [a, b], _ =>
            simp only [Js.index, List.get?, Option.getD, Bool.or_eq_true,
              Bool.and_eq_true] at hpair
            rcases hpair with ⟨ha, hb⟩ | ⟨ha, hb⟩
            · rw [jsStrEq_eq ha, jsStrEq_eq hb]
              exact Or.inl rfl
            · rw [jsStrEq_eq ha, jsStrEq_eq hb]
              exact Or.inr rfl
        | undefined => rw [ho] at hoa; exact absurd hoa (by simp [jsIsArray])
        | null => rw [ho] at hoa; exact absurd hoa (by simp [jsIsArray])
        | str s => rw [ho] at hoa; exact absurd hoa (by simp [jsIsArray])
        | num x => rw [ho] at hoa; exact absurd hoa (by simp [jsIsArray])
        | bool b => rw [ho] at hoa; exact absurd hoa (by simp [jsIsArray])
        | obj f => rw [ho] at hoa; exact absurd hoa (by simp [jsIsArray])
      · generalize hga : q.get "answer" = ga at hans ⊢
        cases ga with
        | str s =>
          simp only [jsIncludes, List.contains, List.elem_eq_mem, List.mem_cons,
            List.mem_singleton, decide_eq_true_eq] at hans
          rcases hans with h | h | h
          · exact Or.inl (by rw [h])
          · exact Or.inr (by rw [h])
          · exact absurd h (by simp)
        | undefined => exact absurd hans (by simp [jsIncludes])
        | null => exact absurd hans (by simp [jsIncludes])
        | num x => exact absurd hans (by simp [jsIncludes])
        | bool b => exact absurd hans (by simp [jsIncludes])
        | arr l => exact absurd hans (by simp [jsIncludes])
        | obj f => exact absurd hans (by simp [jsIncludes])
    | undefined => rw [hq] at hqs; exact absurd hqs (by simp [jsIsString])
    | null => rw [hq] at hqs; exact absurd hqs (by simp [jsIsString])
    | num x => rw [hq] at hqs; exact absurd hqs (by simp [jsIsString])
    | bool b => rw [hq] at hqs; exact absurd hqs (by simp [jsIsString])
    | arr l => rw [hq] at hqs; exact absurd hqs (by simp [jsIsString])
    | obj f => rw [hq] at hqs; exact absurd hqs (by simp [jsIsString])
  · rintro ⟨t, hq, ht, hopt | hopt, hans | hans⟩ <;>
      · have hko : decide (0 < (jsTrim t).length) = true := by
          rw [decide_eq_true_eq]
          exact (stringLengthPos _).mpr ht
        unfold isValidQuestion
        rw [if_neg (by decide), if_pos (by decide), hq, hopt, hans]
        simp only [jsIsString, jsStr, hko]
        decide

/-- C6 (true/false shape validation): an element is accepted for quiz
type `true_false` exactly when its `question` is a string that is
non-blank after trimming, its `options` are literally the pair
`True`/`False` in either order, and its `answer` is `True` or `False`;
and a validated array of such elements is assembled into a written quiz
with one question per element, every question carrying type
`true_false`. -/
theorem true_false_shape_validation (q : Js) :
    (isValidQuestion (.str "true_false") ["True", "False"] q = true ↔
      (∃ t, q.get "question" = .str t ∧ jsTrim t ≠ "" ∧
       (q.get "options" = .arr [.str "True", .str "False"] ∨
        q.get "options" = .arr [.str "False", .str "True"]) ∧
       (q.get "answer" = .str "True" ∨ q.get "answer" = .str "False"))) ∧
    (∀ (env : GenEnv) (caller : CallerAuth) (req : GenRequest) (l : List Js)
       (s : String),
       req.quizType = .str "true_false" →
       categoryOk req.category = true →
       numberOk req.numberOfQuestions = true →
       env.secret = some s →
       env.aiResult = .ok (some (.arr l)) →
       ((l.length : ℚ) = jsNum req.numberOfQuestions) →
       (∀ x ∈ l, isValidQuestion (.str "true_false") ["True", "False"] x = true) →
       ((generateQuiz env (some caller) req).written.map
          (fun quiz => quiz.questions.length) = some l.length ∧
        (generateQuiz env (some caller) req).written.map
          (fun quiz => jsStrEq quiz.quizType "true_false" &&
             quiz.questions.all (fun qd => jsStrEq qd.type "true_false")) =
          some true)) := by
  refine ⟨tf_element_iff q, ?_⟩
  intro env caller req l s hqt hcat hnum hsec hai hlen hall
  have hok : quizTypeOk req.quizType = true := by
    rw [hqt]
    decide
  have hval : schemaValidate req.quizType (expectedAnswersFor req.quizType)
      (jsNum req.numberOfQuestions) (.arr l) = .ok l := by
    unfold schemaValidate checkCount
    dsimp only
    rw [if_pos hlen]
    simp only [Except.bind]
    unfold checkShape
    dsimp only
    have hf : l.filter
        (fun x => !(isValidQuestion req.quizType (expectedAnswersFor req.quizType) x)) = [] := by
      rw [hqt]
      rw [List.filter_eq_nil_iff]
      intro x hx
      have he : expectedAnswersFor (Js.str "true_false") = ["True", "False"] := rfl
      rw [he]
      simp [hall x hx]
    rw [hf]
    rfl
  have hrun := generateQuiz_run_ok env caller req s (.arr l) l hcat hnum hok hsec hai hval
  rw [hrun]
  constructor
  · simp [assembleQuiz, normalizeQuestions]
  · simp [assembleQuiz, hqt]
    refine ⟨by decide, ?_⟩
    intro qd hqd
    unfold normalizeQuestions at hqd
    rw [List.mem_map] at hqd
    obtain ⟨p, hp, rfl⟩ := hqd
    rfl

/-- C6 witness: round-trip example 1 — three valid true/false elements
against `numberOfQuestions = 3` are accepted and assembled into a
written quiz of 3 questions, each of type `true_false`. -/
theorem true_false_shape_validation_witness :
    isValidQuestion (.str "true_false") ["True", "False"] c6Elem = true ∧
    (generateQuiz c6Env (some ⟨"u1", false⟩) c6Req).written.map
      (fun quiz => quiz.questions.length) = some 3 ∧
    (generateQuiz c6Env (some ⟨"u1", false⟩) c6Req).written.map
      (fun quiz => jsStrEq quiz.quizType "true_false" &&
         quiz.questions.all (fun qd => jsStrEq qd.type "true_false")) =
      some true := by
  have h := (true_false_shape_validation c6Elem).2 c6Env ⟨"u1", false⟩ c6Req
    [c6Elem, c6Elem, c6Elem] "api-key" rfl (by decide) (by decide) rfl rfl
    (by decide) (by decide)
  exact ⟨by decide, h.1, h.2⟩

theorem dropWhile_ws_cons_of_ne (c : Char) (l : List Char) (hc : jsWsChar c = false) :
    (c :: l).dropWhile jsWsChar = c :: l := by
  rw [List.dropWhile_cons, hc]
  simp

theorem head_not_ws_of_dropWhile_self (c : Char) (l : List Char)
    (h : (c :: l).dropWhile jsWsChar = c :: l) : jsWsChar c = false := by
  cases hc : jsWsChar c with
  | false => rfl
  | true =>
    rw [List.dropWhile_cons_of_pos hc] at h
    have hle := (List.dropWhile_suffix (l := l) jsWsChar).length_le
    have := congrArg List.length h
    simp [List.length_cons] at this
    omega

theorem dropWhile_ws_append_of_self (l₁ l₂ : List Char) (hne : l₁ ≠ [])
    (h : l₁.dropWhile jsWsChar = l₁) :
    (l₁ ++ l₂).dropWhile jsWsChar = l₁ ++ l₂ := by
  cases l₁ with
  | nil => exact absurd rfl hne
  | cons c cs =>
    have hc : jsWsChar c = false := head_not_ws_of_dropWhile_self c cs h
    rw [List.cons_append]
    exact dropWhile_ws_cons_of_ne c (cs ++ l₂) hc

/-- A string equal to its own trim drops nothing on either side. -/
theorem jsTrim_eq_self_parts (p : String) (hp : jsTrim p = p) :
    p.data.dropWhile jsWsChar = p.data ∧
    p.data.reverse.dropWhile jsWsChar = p.data.reverse := by
  have hd : (((p.data.dropWhile jsWsChar).reverse.dropWhile jsWsChar)).reverse
      = p.data := congrArg String.data hp
  have hle1 : (p.data.dropWhile jsWsChar).length ≤ p.data.length :=
    (List.dropWhile_suffix jsWsChar).length_le
  have hle2 : ((p.data.dropWhile jsWsChar).reverse.dropWhile jsWsChar).length ≤
      (p.data.dropWhile jsWsChar).length := by
    have := (List.dropWhile_suffix (l := (p.data.dropWhile jsWsChar).reverse)
      jsWsChar).length_le
    simpa using this
  have hlen : ((p.data.dropWhile jsWsChar).reverse.dropWhile jsWsChar).length =
      p.data.length := by
    have := congrArg List.length hd
    simpa using this
  have h1 : (p.data.dropWhile jsWsChar).length = p.data.length := by omega
  have hu : p.data.dropWhile jsWsChar = p.data :=
    (List.dropWhile_suffix jsWsChar).eq_of_length h1
  refine ⟨hu, ?_⟩
  rw [hu] at hd hlen
  have hv : p.data.reverse.dropWhile jsWsChar = p.data.reverse := by
    apply (List.dropWhile_suffix jsWsChar).eq_of_length
    simpa using hlen
  exact hv

/-- Appending to the right of a string that ends with the given pattern
makes `endsWith` hold; here specialised to an exact suffix. -/
theorem jsEndsWith_of_data (s e : String) (x : List Char)
    (hdata : s.data = x ++ e.data) : jsEndsWith s e = true := by
  unfold jsEndsWith
  rw [List.isPrefixOf_iff_prefix, hdata, List.reverse_append]
  exact List.prefix_append _ _

/-- C9 (amended): the sanitizer trims, strips the leading fence exactly
when the trimmed text starts with the tagged marker `` ```json `` (not a
bare fence), strips a trailing `` ``` `` whenever present, and trims
again.  A json-tagged fenced trimmed payload sanitizes to the payload;
an untagged fence keeps its leading marker, only the trailing fence
being removed. -/
theorem sanitizer_amended (p : String) (hp : jsTrim p = p) :
    sanitize ("```json\n" ++ p ++ "\n```") = p ∧
    sanitize ("```\n" ++ p ++ "\n```") = jsTrim ("```\n" ++ p) := by
  obtain ⟨hA, hB⟩ := jsTrim_eq_self_parts p hp
  constructor
  · have hfront : (("```json\n" ++ p ++ "\n```").data).dropWhile jsWsChar =
        ("```json\n" ++ p ++ "\n```").data :=
      dropWhile_ws_append_of_self "```json\n".data (p.data ++ "\n```".data)
        (by decide) (by decide)
    have hback : (("```json\n" ++ p ++ "\n```").data).reverse.dropWhile jsWsChar =
        (("```json\n" ++ p ++ "\n```").data).reverse := by
      rw [show ("```json\n" ++ p ++ "\n```").data =
        ("```json\n".data ++ p.data) ++ "\n```".data from rfl]
      rw [List.reverse_append, List.reverse_append]
      exact dropWhile_ws_append_of_self ("\n```".data.reverse)
        (p.data.reverse ++ "```json\n".data.reverse) (by decide) (by decide)
    have htrim : jsTrim ("```json\n" ++ p ++ "\n```") =
        ("```json\n" ++ p ++ "\n```") := by
      unfold jsTrim
      rw [hfront, hback, List.reverse_reverse]
    have hstarts : jsStartsWith ("```json\n" ++ p ++ "\n```") "```json" = true := rfl
    have hdrop7 : jsDrop ("```json\n" ++ p ++ "\n```") 7 = "\n" ++ p ++ "\n```" := rfl
    have hends : jsEndsWith ("\n" ++ p ++ "\n```") "```" = true := by
      apply jsEndsWith_of_data _ _ ('\n' :: p.data ++ ['\n'])
      show ('\n' :: p.data) ++ "\n```".data = ('\n' :: p.data ++ ['\n']) ++ "```".data
      simp
    have hdrop3 : jsDropRight ("\n" ++ p ++ "\n```") 3 = "\n" ++ p ++ "\n" := by
      unfold jsDropRight
      apply congrArg String.mk
      show (('\n' :: p.data) ++ "\n```".data).take
          ((('\n' :: p.data) ++ "\n```".data).length - 3) = ('\n' :: p.data) ++ ['\n']
      rw [List.take_append_eq_append_take]
      have hlen : (('\n' :: p.data) ++ "\n```".data).length - 3 =
          ('\n' :: p.data).length + 1 := by
        simp [List.length_append, List.length_cons]
      rw [hlen, List.take_of_length_le (by omega)]
      congr 1
      have : ('\n' :: p.data).length + 1 - ('\n' :: p.data).length = 1 := by omega
      rw [this]
      rfl
    have hfinal : jsTrim ("\n" ++ p ++ "\n") = p := by
      unfold jsTrim
      show String.mk ((((('\n' :: (p.data ++ ['\n'])).dropWhile jsWsChar)).reverse.dropWhile
        jsWsChar).reverse) = p
      rw [List.dropWhile_cons_of_pos (by decide)]
      cases hpd : p.data with
      | nil =>
        exact congrArg String.mk hpd.symm
      | cons c cs =>
        have hA' : (c :: cs).dropWhile jsWsChar = c :: cs := by rw [← hpd]; exact hA
        have hB' : (c :: cs).reverse.dropWhile jsWsChar = (c :: cs).reverse := by
          rw [← hpd]
          exact hB
        rw [show (c :: cs ++ ['\n']).dropWhile jsWsChar = (c :: cs) ++ ['\n'] from
          dropWhile_ws_append_of_self (c :: cs) ['\n'] (by simp) hA']
        rw [List.reverse_append]
        show String.mk ((List.dropWhile jsWsChar ('\n' :: (c :: cs).reverse)).reverse) = p
        rw [List.dropWhile_cons_of_pos (by decide), hB', List.reverse_reverse]
        exact congrArg String.mk hpd.symm
    unfold sanitize
    simp only [htrim, hstarts, hdrop7, hends, hdrop3, hfinal, if_true]
  · have htrim2 : jsTrim ("```\n" ++ p ++ "\n```") = ("```\n" ++ p ++ "\n```") := by
      have hfront : (("```\n" ++ p ++ "\n```").data).dropWhile jsWsChar =
          ("```\n" ++ p ++ "\n```").data :=
        dropWhile_ws_append_of_self "```\n".data (p.data ++ "\n```".data)
          (by decide) (by decide)
      have hback : (("```\n" ++ p ++ "\n```").data).reverse.dropWhile jsWsChar =
          (("```\n" ++ p ++ "\n```").data).reverse := by
        rw [show ("```\n" ++ p ++ "\n```").data =
          ("```\n".data ++ p.data) ++ "\n```".data from rfl]
        rw [List.reverse_append, List.reverse_append]
        exact dropWhile_ws_append_of_self ("\n```".data.reverse)
          (p.data.reverse ++ "```\n".data.reverse) (by decide) (by decide)
      unfold jsTrim
      rw [hfront, hback, List.reverse_reverse]
    have hstarts2 : jsStartsWith ("```\n" ++ p ++ "\n```") "```json" = false := rfl
    have hends2 : jsEndsWith ("```\n" ++ p ++ "\n```") "```" = true := by
      apply jsEndsWith_of_data _ _ ('`' :: '`' :: '`' :: '\n' :: p.data ++ ['\n'])
      show ('`' :: '`' :: '`' :: '\n' :: p.data) ++ "\n```".data =
        ('`' :: '`' :: '`' :: '\n' :: p.data ++ ['\n']) ++ "```".data
      simp
    have hdrop32 : jsDropRight ("```\n" ++ p ++ "\n```") 3 = "```\n" ++ p ++ "\n" := by
      unfold jsDropRight
      apply congrArg String.mk
      show (('`' :: '`' :: '`' :: '\n' :: p.data) ++ "\n```".data).take
          ((('`' :: '`' :: '`' :: '\n' :: p.data) ++ "\n```".data).length - 3) =
        ('`' :: '`' :: '`' :: '\n' :: p.data) ++ ['\n']
      rw [List.take_append_eq_append_take]
      have hlen : (('`' :: '`' :: '`' :: '\n' :: p.data) ++ "\n```".data).length - 3 =
          ('`' :: '`' :: '`' :: '\n' :: p.data).length + 1 := by
        simp [List.length_append, List.length_cons]
      rw [hlen, List.take_of_length_le (by omega)]
      congr 1
      have h1 : ('`' :: '`' :: '`' :: '\n' :: p.data).length + 1 -
          ('`' :: '`' :: '`' :: '\n' :: p.data).length = 1 := by omega
      rw [h1]
      rfl
    have hfinal2 : jsTrim ("```\n" ++ p ++ "\n") = jsTrim ("```\n" ++ p) := by
      unfold jsTrim
      apply congrArg String.mk
      rw [show (("```\n" ++ p ++ "\n").data) =
        ('`' :: '`' :: '`' :: '\n' :: p.data) ++ ['\n'] from rfl]
      rw [dropWhile_ws_append_of_self ('`' :: '`' :: '`' :: '\n' :: p.data) ['\n']
        (by simp) (dropWhile_ws_cons_of_ne _ _ rfl)]
      rw [show (("```\n" ++ p).data) = '`' :: '`' :: '`' :: '\n' :: p.data from rfl]
      rw [dropWhile_ws_cons_of_ne ('`' : Char) ('`' :: '`' :: '\n' :: p.data) rfl]
      rw [List.reverse_append]
      show (List.dropWhile jsWsChar
          ('\n' :: ('`' :: '`' :: '`' :: '\n' :: p.data).reverse)).reverse = _
      rw [List.dropWhile_cons_of_pos (by decide)]
    unfold sanitize
    simp only [htrim2, hstarts2, hends2, hdrop32, hfinal2, Bool.false_eq_true,
      if_false, if_true]

/-- C9 counterexample: a fenced payload whose opening fence lacks the
`json` language tag does not sanitize to its inner text — the leading
fence marker is kept and only the trailing fence is stripped. -/
theorem sanitizer_counterexample :
    sanitize "```\n[]\n```" = "```\n[]" ∧ sanitize "```\n[]\n```" ≠ "[]" := by
  exact ⟨by decide, by decide⟩

/-- C9 witness: the spec's fence-stripping example — a json-tagged fence
around a one-element array sanitizes to the inner text. -/
theorem sanitizer_amended_witness :
    jsTrim "[\x7b\"question\":\"x\",\"options\":[\"True\",\"False\"],\"answer\":\"True\"\x7d]" =
      "[\x7b\"question\":\"x\",\"options\":[\"True\",\"False\"],\"answer\":\"True\"\x7d]" ∧
    sanitize ("```json\n" ++
        "[\x7b\"question\":\"x\",\"options\":[\"True\",\"False\"],\"answer\":\"True\"\x7d]" ++
        "\n```") =
      "[\x7b\"question\":\"x\",\"options\":[\"True\",\"False\"],\"answer\":\"True\"\x7d]" := by
  have hp : jsTrim
      "[\x7b\"question\":\"x\",\"options\":[\"True\",\"False\"],\"answer\":\"True\"\x7d]" =
      "[\x7b\"question\":\"x\",\"options\":[\"True\",\"False\"],\"answer\":\"True\"\x7d]" := by
    decide
  exact ⟨hp, (sanitizer_amended _ hp).1⟩

end SportsQuiz
